import Mathlib

/-!
Verification of the recently-played-songs batch job (`src/main.js`).

The program is a single sequential run: read the stored pagination cursor,
fetch recently played tracks, sort them by `played_at`, group them by the
date substring of `played_at`, write one archive file per date in a fresh
temporary directory, render each date's archive into `README.md`
(overwriting it each time), rewrite the archive with the rendered subset,
and finally persist the cursor document.

The definitions below are a shallow embedding of `main.js`:
pure functions become Lean functions, the file writes of a run are recorded
in an explicit `Writes` record, thrown-and-caught JavaScript errors become
`Except` errors, and JavaScript `null`/`undefined` become `Option`.
Timestamps: the code compares `new Date(a.played_at) - new Date(b.played_at)`;
the parse `new Date(·).getTime()` is modelled by an arbitrary valuation
`tsv : String → Int` that every theorem quantifies over.
-/

/-- One variant of a Spotify album image (`{url, width}`). -/
structure Image where
  url : String
  width : Int
deriving DecidableEq, Repr

/-- `album.external_urls` of the Spotify payload. -/
structure ExternalUrls where
  spotify : String
deriving DecidableEq, Repr

/-- `track.album` of the Spotify payload. -/
structure Album where
  name : String
  images : List Image
  external_urls : ExternalUrls
deriving DecidableEq, Repr

/-- One artist record (`{name}`). -/
structure Artist where
  name : String
deriving DecidableEq, Repr

/-- A Spotify track as consumed by the renderer. -/
structure Track where
  name : String
  artists : List Artist
  album : Album
deriving DecidableEq, Repr

/-- A Play Event: one element of the fetched `items` array. -/
structure PlayEvent where
  played_at : String
  track : Track
deriving DecidableEq, Repr

/-- One element of a date archive's `items` array.  The archiver stores whole
Play Events; the renderer's rewrite (line 149 of `main.js`) stores the bare
`track` objects it extracted on line 111, so both shapes occur in files. -/
inductive ArchItem where
  | event (e : PlayEvent)
  | trackOnly (t : Track)
deriving DecidableEq, Repr

/-- Whether an archive item is a full Play Event record (has `played_at`). -/
def ArchItem.isEvent : ArchItem → Bool
  | .event _ => true
  | .trackOnly _ => false

/-- JavaScript `item.track`: defined on a Play Event, `undefined` on a bare
track object (which has no `track` property). -/
def ArchItem.trackOf : ArchItem → Option Track
  | .event e => some e.track
  | .trackOnly _ => none

/-- The `items` field of a parsed date-archive file: either a JSON array of
archive items or some non-array JSON value (all of which fail the
`Array.isArray`/truthiness validation or the `push` call). -/
inductive RawItems where
  | arr (l : List ArchItem)
  | nonArray
deriving DecidableEq, Repr

/-- A parsed date-archive object; `items := none` models a missing field. -/
structure RawArchive where
  items : Option RawItems
deriving DecidableEq, Repr

/-- The list held by an archive's `items` field when it is an array. -/
def RawArchive.itemsList (a : RawArchive) : List ArchItem :=
  match a.items with
  | some (RawItems.arr l) => l
  | _ => []

/-- The `cursors` object of the fetch response (`{after}`). -/
structure Cursors where
  after : Option String
deriving DecidableEq, Repr

/-- The parsed body of the history fetch; `cursors := none` models a
response without a `cursors` object. -/
structure FetchResponse where
  items : List PlayEvent
  cursors : Option Cursors
deriving DecidableEq, Repr

/-- The persisted cursor document `./info-schema.json`. -/
structure CursorFileData where
  cursor : Option Cursors
deriving DecidableEq, Repr

/-- Line 42: `infoSchemaDB.data.cursor?.after ?? null` (after line 34 has
replaced absent data with `{}`). -/
def readCursorAfter (data : Option CursorFileData) : Option String :=
  match data with
  | some d =>
    match d.cursor with
    | some c => c.after
    | none => none
  | none => none

/-- Line 60: `item.played_at.split('T')[0]`, the prefix of `played_at`
before the first `'T'` (the whole string when no `'T'` occurs). -/
def dateOf (item : PlayEvent) : String :=
  String.mk (item.played_at.data.takeWhile (fun c => c ≠ 'T'))

/-- The comparator of line 59: ascending order of the parsed timestamps
`new Date(·.played_at)`, the parse being the valuation `tsv`. -/
def playLe (tsv : String → Int) (a b : PlayEvent) : Prop :=
  tsv a.played_at ≤ tsv b.played_at

instance (tsv : String → Int) : DecidableRel (playLe tsv) :=
  fun a b => Int.decLe (tsv a.played_at) (tsv b.played_at)

/-- One step of `groupByDate` (lines 201-207): look up the key `date` in the
groups object (string keys keep insertion order) and push `item` at the tail
of its array, creating the group at the end when the key is new. -/
def insertGroup (groups : List (String × List PlayEvent)) (date : String)
    (item : PlayEvent) : List (String × List PlayEvent) :=
  match groups with
  | [] => [(date, [item])]
  | (k, g) :: rest =>
    if k = date then (k, g ++ [item]) :: rest
    else (k, g) :: insertGroup rest date item

/-- Lines 199-209: group `items` by `dateExtractor`, keys in first-occurrence
order, each group holding its items in input order. -/
def groupByDate (items : List PlayEvent) (dateExtractor : PlayEvent → String) :
    List (String × List PlayEvent) :=
  items.foldl (fun groups item => insertGroup groups (dateExtractor item) item) []

/-- Lines 59-60: sort the fetched items ascending by timestamp, then group
them by the date substring of `played_at`. -/
def partitionByDate (tsv : String → Int) (items : List PlayEvent) :
    List (String × List PlayEvent) :=
  groupByDate (List.insertionSort (playLe tsv) items) dateOf

/-- Lines 74-80: the per-date archiver.  `dbData = none` models falsy
`db.data` (the fresh temp file), taking the create branch; data whose
`items` is missing or not an array makes `db.data.items.push` throw. -/
def archiveStep (dbData : Option RawArchive) (items : List PlayEvent) :
    Except String RawArchive :=
  match dbData with
  | some d =>
    match d.items with
    | some (RawItems.arr l) =>
      Except.ok { items := some (RawItems.arr (l ++ items.map ArchItem.event)) }
    | _ => Except.error "TypeError: db.data.items is not an array"
  | none => Except.ok { items := some (RawItems.arr (items.map ArchItem.event)) }

/-- The archive content the create branch writes for a date group. -/
def freshArchive (l : List PlayEvent) : RawArchive :=
  { items := some (RawItems.arr (l.map ArchItem.event)) }

/-- Lines 120-126: the fixed table header. -/
def tableHeader : String :=
  "<table style=\"border-collapse: collapse; width: 100%;\">" ++
  "<tr style=\"background-color: #f2f2f2;\">" ++
  "<th style=\"padding: 8px; text-align: left;\">Album Artwork</th>" ++
  "<th style=\"padding: 8px; text-align: left;\">Track Name</th>" ++
  "<th style=\"padding: 8px; text-align: left;\">Artists</th>" ++
  "<th style=\"padding: 8px; text-align: left;\">Album</th>" ++
  "</tr>"

/-- Lines 130-139: one table row for `track`, using the album image found by
the caller and the row index for the alternating background colour. -/
def rowHtml (track : Track) (albumImage : Image) (index : Nat) : String :=
  let album := track.album
  let artistNames := String.intercalate ", " (track.artists.map (fun artist => artist.name))
  "<tr style=\"background-color: " ++
    (if index % 2 = 0 then "#ffffff" else "#f2f2f2") ++ ";\">" ++
  "<td style=\"padding: 8px;\"><img src=\"" ++ albumImage.url ++ "\" alt=\"" ++
    album.name ++ "\" style=\"width: 64px; height: 64px;\"></td>" ++
  "<td style=\"padding: 8px;\">" ++ track.name ++ "</td>" ++
  "<td style=\"padding: 8px;\">" ++ artistNames ++ "</td>" ++
  "<td style=\"padding: 8px;\"><a href=\"" ++ album.external_urls.spotify ++
    "\" target=\"_blank\">" ++ album.name ++ "</a></td>" ++
  "</tr>"

/-- The `forEach` of lines 129-140 over `lastTenPlayed`: each element must be
a defined track (else `track.album` throws) carrying an image of width
exactly 64 (else `albumImage.url` throws); on success it yields the row
strings paired with their source tracks, in display order. -/
def renderRows : List (Option Track) → Nat → Except String (List (String × Track))
  | [], _ => Except.ok []
  | none :: _, _ =>
    Except.error "TypeError: Cannot read properties of undefined (reading album)"
  | some track :: rest, index =>
    match track.album.images.find? (fun img => img.width == 64) with
    | none =>
      Except.error "TypeError: Cannot read properties of undefined (reading url)"
    | some albumImage =>
      match renderRows rest (index + 1) with
      | Except.error e => Except.error e
      | Except.ok rs => Except.ok ((rowHtml track albumImage index, track) :: rs)

/-- What a successful render produces: the `README.md` content, the rows of
the table (with their tracks), and the content written back over the
archive file on line 150. -/
structure RenderResult where
  readme : String
  rows : List (String × Track)
  newArchive : RawArchive
deriving DecidableEq, Repr

/-- Lines 100-155, `generateRecentlyPlayedHTML`, on the parsed content of the
date file (`none` models a falsy parse result): validate that `items` is an
array, map the items to their `track`s, reverse, keep the first 10, render
the rows, and on success write `README.md` and rewrite the archive's `items`
with the (reversed back) rendered tracks.  Every thrown error is modelled as
`Except.error`; on error nothing is written (the `catch` only logs). -/
def generateRecentlyPlayedHTML (dateData : Option RawArchive) :
    Except String RenderResult :=
  match dateData with
  | none => Except.error "Invalid data structure in JSON file"
  | some d =>
    match d.items with
    | some (RawItems.arr itemsArr) =>
      let recentlyPlayed := (itemsArr.map ArchItem.trackOf).reverse
      let lastTenPlayed := recentlyPlayed.take 10
      match renderRows lastTenPlayed 0 with
      | Except.error e => Except.error e
      | Except.ok rows =>
        Except.ok
          { readme := tableHeader ++ String.join (rows.map Prod.fst) ++ "</table>"
            rows := rows
            newArchive :=
              { items := some (RawItems.arr
                  (((rows.map Prod.snd).reverse).map ArchItem.trackOnly)) } }
    | _ => Except.error "Invalid data structure in JSON file"

/-- `true` exactly when the render reaches its two file writes. -/
def renderSucceeds (r : Except String RenderResult) : Bool :=
  match r with
  | Except.ok _ => true
  | Except.error _ => false

/-- The net effect of one `generateRecentlyPlayedHTML` call on the pair
(`README.md` content, archive file content): both writes happen on success,
neither on a caught error (lines 145, 150, 152-154). -/
def renderEffects (readme0 : Option String) (archive0 : Option RawArchive) :
    Option String × Option RawArchive :=
  match generateRecentlyPlayedHTML archive0 with
  | Except.ok r => (some r.readme, some r.newArchive)
  | Except.error _ => (readme0, archive0)

/-- The state threaded through the date loop of lines 64-88: the last
`README.md` content written this run (if any) and the final content of each
date file written, in processing order. -/
structure LoopState where
  readme : Option String
  archives : List (String × RawArchive)
deriving DecidableEq, Repr

/-- One iteration of the loop (lines 64-88) for the group `g`: the date file
lives in the fresh per-run temporary directory, so its first read yields no
data and lines 74-83 write `freshArchive g.2` (see `archiveStep_none`); then
the render either rewrites `README.md` and the date file or, on a caught
error, leaves both as they are. -/
def processDate (st : LoopState) (g : String × List PlayEvent) : LoopState :=
  let arch := freshArchive g.2
  match generateRecentlyPlayedHTML (some arch) with
  | Except.ok r =>
    { readme := some r.readme, archives := st.archives ++ [(g.1, r.newArchive)] }
  | Except.error _ =>
    { readme := st.readme, archives := st.archives ++ [(g.1, arch)] }

/-- The writes a run performs: final `README.md` content (`none` = never
written), final content of each date file, and the cursor value stored in
`./info-schema.json` (`none` = the file was not written). -/
structure Writes where
  readme : Option String
  archives : List (String × RawArchive)
  cursorFile : Option (Option String)
deriving DecidableEq, Repr

/-- How a run ends. -/
inductive RunOutcome where
  | earlyExit (code : Nat) (w : Writes)
  | crashed (w : Writes)
  | completed (w : Writes)
deriving DecidableEq, Repr

/-- Lines 48-96 of `main`, from the fetch result onward.  `prevCursor` is the
value read by line 42.  Zero items: `process.exit(0)` before any write.  A
response without a `cursors` object makes line 54 throw (uncaught).
Otherwise the items are sorted and grouped, each date group is archived and
rendered, and the cursor document is written, holding the fetched
`cursors.after` when that is truthy and the previous value otherwise. -/
def mainRun (tsv : String → Int) (prevCursor : Option String)
    (resp : FetchResponse) : RunOutcome :=
  if resp.items.length = 0 then
    RunOutcome.earlyExit 0 { readme := none, archives := [], cursorFile := none }
  else
    match resp.cursors with
    | none => RunOutcome.crashed { readme := none, archives := [], cursorFile := none }
    | some cursorsObj =>
      let newCursorAfter := cursorsObj.after
      let itemsByDate := partitionByDate tsv resp.items
      let final := itemsByDate.foldl processDate { readme := none, archives := [] }
      let storedCursor :=
        match newCursorAfter with
        | some a => if a = "" then prevCursor else some a
        | none => prevCursor
      RunOutcome.completed
        { readme := final.readme, archives := final.archives
          cursorFile := some storedCursor }

/-- Lines 180-186 of `getRecentlyPlayedTracks`: the query starts as
`limit=<n>` and `after` is appended only when truthy (non-null, non-empty). -/
def getRecentlyPlayedQuery (limit : Nat) (after : Option String) :
    List (String × String) :=
  let serachParams := [("limit", toString limit)]
  match after with
  | some a => if a = "" then serachParams else serachParams ++ [("after", a)]
  | none => serachParams

/-! ### Properties of `insertGroup` and `groupByDate` -/

theorem archiveStep_none (l : List PlayEvent) :
    archiveStep none l = Except.ok (freshArchive l) := rfl

theorem insertGroup_keys (gs : List (String × List PlayEvent)) (d : String)
    (e : PlayEvent) :
    (insertGroup gs d e).map Prod.fst =
      if d ∈ gs.map Prod.fst then gs.map Prod.fst
      else gs.map Prod.fst ++ [d] := by
  induction gs with
  | nil => simp [insertGroup]
  | cons p rest ih =>
    obtain ⟨k, g⟩ := p
    by_cases hk : k = d
    · subst hk
      simp [insertGroup]
    · by_cases hd : d ∈ rest.map Prod.fst
      · simp [insertGroup, hk, ih, hd, Ne.symm hk]
      · simp [insertGroup, hk, ih, hd, Ne.symm hk]

theorem insertGroup_cons_pos (k : String) (g : List PlayEvent)
    (rest : List (String × List PlayEvent)) (e : PlayEvent) :
    insertGroup ((k, g) :: rest) k e = (k, g ++ [e]) :: rest := by
  simp [insertGroup]

theorem insertGroup_cons_neg (k d : String) (hk : k ≠ d) (g : List PlayEvent)
    (rest : List (String × List PlayEvent)) (e : PlayEvent) :
    insertGroup ((k, g) :: rest) d e = (k, g) :: insertGroup rest d e := by
  simp [insertGroup, hk]

theorem insertGroup_mem (gs : List (String × List PlayEvent)) (d : String)
    (e : PlayEvent) :
    ∀ q : String × List PlayEvent, (gs.map Prod.fst).Nodup →
    q ∈ insertGroup gs d e →
    (q.1 ≠ d ∧ q ∈ gs) ∨
    (q.1 = d ∧ ((∃ g, (d, g) ∈ gs ∧ q = (d, g ++ [e])) ∨
                (d ∉ gs.map Prod.fst ∧ q = (d, [e])))) := by
  induction gs with
  | nil =>
    intro q _ hq
    simp only [insertGroup, List.mem_singleton] at hq
    subst hq
    exact Or.inr ⟨rfl, Or.inr ⟨by simp, rfl⟩⟩
  | cons hd rest ih =>
    obtain ⟨k, g⟩ := hd
    intro q hnd hq
    simp only [List.map_cons, List.nodup_cons] at hnd
    by_cases hk : k = d
    · subst hk
      rw [insertGroup_cons_pos, List.mem_cons] at hq
      rcases hq with hq | hq
      · subst hq
        exact Or.inr ⟨rfl, Or.inl ⟨g, by simp, rfl⟩⟩
      · refine Or.inl ⟨?_, List.mem_cons_of_mem _ hq⟩
        intro h1
        exact hnd.1 (h1 ▸ List.mem_map_of_mem Prod.fst hq)
    · rw [insertGroup_cons_neg k d hk, List.mem_cons] at hq
      rcases hq with hq | hq
      · subst hq
        exact Or.inl ⟨hk, List.mem_cons_self _ _⟩
      · rcases ih q hnd.2 hq with ⟨h1, h2⟩ | ⟨h1, h2⟩
        · exact Or.inl ⟨h1, List.mem_cons_of_mem _ h2⟩
        · refine Or.inr ⟨h1, ?_⟩
          rcases h2 with ⟨g0, hg0, hq0⟩ | ⟨hnm, hq0⟩
          · exact Or.inl ⟨g0, List.mem_cons_of_mem _ hg0, hq0⟩
          · refine Or.inr ⟨?_, hq0⟩
            simp only [List.map_cons, List.mem_cons]
            rintro (h | h)
            · exact hk h.symm
            · exact hnm h

/-- The invariant the date loop's accumulator keeps over the already
processed prefix `p`: group keys are distinct, a key occurs exactly when
some processed item has it, and each group holds exactly the processed
items with its key, in order. -/
def GroupsWF (f : PlayEvent → String) (p : List PlayEvent)
    (gs : List (String × List PlayEvent)) : Prop :=
  (gs.map Prod.fst).Nodup ∧
  (∀ k, k ∈ gs.map Prod.fst ↔ k ∈ p.map f) ∧
  (∀ q ∈ gs, q.2 = p.filter (fun e => f e = q.1))

theorem groupsWF_insert (f : PlayEvent → String) (p : List PlayEvent)
    (gs : List (String × List PlayEvent)) (e : PlayEvent)
    (h : GroupsWF f p gs) : GroupsWF f (p ++ [e]) (insertGroup gs (f e) e) := by
  obtain ⟨hnd, hmem, hgrp⟩ := h
  refine ⟨?_, ?_, ?_⟩
  · rw [insertGroup_keys]
    by_cases hd : f e ∈ gs.map Prod.fst
    · rw [if_pos hd]
      exact hnd
    · rw [if_neg hd]
      refine List.nodup_append.mpr ⟨hnd, List.nodup_singleton _, ?_⟩
      intro a ha hb
      rw [List.mem_singleton] at hb
      exact hd (hb ▸ ha)
  · intro k
    rw [insertGroup_keys]
    by_cases hd : f e ∈ gs.map Prod.fst
    · rw [if_pos hd, hmem k]
      simp only [List.map_append, List.map_cons, List.map_nil, List.mem_append,
        List.mem_singleton]
      constructor
      · exact fun h => Or.inl h
      · rintro (h | h)
        · exact h
        · subst h
          exact (hmem _).mp hd
    · rw [if_neg hd]
      simp only [List.mem_append, List.mem_singleton, hmem, List.map_append,
        List.map_cons, List.map_nil]
  · intro q hq
    rcases insertGroup_mem gs (f e) e q hnd hq with ⟨h1, h2⟩ | ⟨h1, h2⟩
    · rw [hgrp q h2, List.filter_append]
      simp [Ne.symm h1]
    · rcases h2 with ⟨g0, hg0, hq0⟩ | ⟨hnm, hq0⟩
      · have hg0' := hgrp (f e, g0) hg0
        subst hq0
        simp only [List.filter_append]
        simp only at hg0'
        rw [← hg0']
        simp
      · have hpf : p.filter (fun x => f x = f e) = [] := by
          rw [List.filter_eq_nil_iff]
          intro a ha hfa
          simp only [decide_eq_true_eq] at hfa
          exact hnm ((hmem (f e)).mpr (hfa ▸ List.mem_map_of_mem f ha))
        subst hq0
        simp only [List.filter_append]
        simp only [hpf]
        simp

theorem groupsWF_foldl (f : PlayEvent → String) (l : List PlayEvent) :
    ∀ (p : List PlayEvent) (gs : List (String × List PlayEvent)),
    GroupsWF f p gs →
    GroupsWF f (p ++ l)
      (l.foldl (fun groups item => insertGroup groups (f item) item) gs) := by
  induction l with
  | nil =>
    intro p gs h
    simpa using h
  | cons e rest ih =>
    intro p gs h
    have h1 := groupsWF_insert f p gs e h
    have h2 := ih (p ++ [e]) _ h1
    simpa [List.append_assoc] using h2

theorem groupsWF_groupByDate (f : PlayEvent → String) (l : List PlayEvent) :
    GroupsWF f l (groupByDate l f) := by
  have h0 : GroupsWF f [] [] := ⟨List.nodup_nil, by simp, by simp⟩
  have := groupsWF_foldl f l [] [] h0
  simpa [groupByDate] using this

/-- Splitting a list by a complete, duplicate-free system of keys and
concatenating the pieces permutes the list. -/
theorem join_filter_perm (f : PlayEvent → String) :
    ∀ (keys : List String) (l : List PlayEvent), keys.Nodup →
    (∀ a ∈ l, f a ∈ keys) →
    (keys.map (fun k => l.filter (fun a => f a = k))).join.Perm l := by
  intro keys
  induction keys with
  | nil =>
    intro l _ hc
    have : l = [] := List.eq_nil_iff_forall_not_mem.mpr (fun a ha => by
      simpa using hc a ha)
    simp [this]
  | cons k ks ih =>
    intro l hnd hc
    rw [List.nodup_cons] at hnd
    have hperm : (l.filter (fun a => f a = k) ++ l.filter (fun a => ¬ f a = k)).Perm l := by
      simpa using List.filter_append_perm (fun a => decide (f a = k)) l
    have hsame : ∀ k' ∈ ks,
        (l.filter (fun a => ¬ f a = k)).filter (fun a => f a = k') =
          l.filter (fun a => f a = k') := by
      intro k' hk'
      rw [List.filter_filter]
      apply List.filter_congr
      intro a _
      by_cases hfa : f a = k'
      · have hkk : ¬ k' = k := fun h => hnd.1 (h ▸ hk')
        simp [hfa, hkk]
      · simp [hfa]
    have hmapeq :
        ks.map (fun k' => (l.filter (fun a => ¬ f a = k)).filter (fun a => f a = k')) =
          ks.map (fun k' => l.filter (fun a => f a = k')) :=
      List.map_congr_left hsame
    have hcov : ∀ a ∈ l.filter (fun a => ¬ f a = k), f a ∈ ks := by
      intro a ha
      rw [List.mem_filter] at ha
      have := hc a ha.1
      rw [List.mem_cons] at this
      rcases this with h | h
      · exact absurd h (by simpa using ha.2)
      · exact h
    have hih := ih (l.filter (fun a => ¬ f a = k)) hnd.2 hcov
    rw [hmapeq] at hih
    have step1 : ((k :: ks).map (fun k' => l.filter (fun a => f a = k'))).join =
        l.filter (fun a => f a = k) ++
          (ks.map (fun k' => l.filter (fun a => f a = k'))).join := by
      simp
    rw [step1]
    exact (hih.append_left (l.filter (fun a => f a = k))).trans hperm

/-- C1: the Date Partitioner (sort ascending by timestamp, then group by the
date substring of `played_at`) yields groups with pairwise-distinct keys,
exactly one per date substring occurring in the input; each group is sorted
ascending by timestamp; and the concatenation of all groups is a
permutation of the input (nothing dropped, nothing duplicated). -/
theorem date_partitioner_correct (tsv : String → Int) (items : List PlayEvent) :
    ((partitionByDate tsv items).map Prod.fst).Nodup ∧
    (∀ k, k ∈ (partitionByDate tsv items).map Prod.fst ↔ k ∈ items.map dateOf) ∧
    (∀ q ∈ partitionByDate tsv items, List.Sorted (playLe tsv) q.2) ∧
    ((partitionByDate tsv items).map Prod.snd).join.Perm items := by
  have hperm : (List.insertionSort (playLe tsv) items).Perm items :=
    List.perm_insertionSort (playLe tsv) items
  have hwf := groupsWF_groupByDate dateOf (List.insertionSort (playLe tsv) items)
  obtain ⟨hnd, hmem, hgrp⟩ := hwf
  have htot : IsTotal PlayEvent (playLe tsv) :=
    ⟨fun a b => Int.le_total (tsv a.played_at) (tsv b.played_at)⟩
  have htrans : IsTrans PlayEvent (playLe tsv) :=
    ⟨fun a b c hab hbc => Int.le_trans hab hbc⟩
  have hsorted : List.Sorted (playLe tsv) (List.insertionSort (playLe tsv) items) :=
    @List.sorted_insertionSort PlayEvent (playLe tsv) _ htot htrans items
  refine ⟨hnd, ?_, ?_, ?_⟩
  · intro k
    simp only [partitionByDate]
    rw [hmem k]
    exact (hperm.map dateOf).mem_iff
  · intro q hq
    simp only [partitionByDate] at hq
    rw [hgrp q hq]
    exact hsorted.filter _
  · have hcov : ∀ a ∈ List.insertionSort (playLe tsv) items,
        dateOf a ∈
          (groupByDate (List.insertionSort (playLe tsv) items) dateOf).map Prod.fst := by
      intro a ha
      rw [hmem (dateOf a)]
      exact List.mem_map_of_mem dateOf ha
    have hmapsnd :
        (groupByDate (List.insertionSort (playLe tsv) items) dateOf).map Prod.snd =
          ((groupByDate (List.insertionSort (playLe tsv) items) dateOf).map Prod.fst).map
            (fun k => (List.insertionSort (playLe tsv) items).filter
              (fun a => dateOf a = k)) := by
      rw [List.map_map]
      apply List.map_congr_left
      intro q hq
      exact hgrp q hq
    have hjoin := join_filter_perm dateOf
      ((groupByDate (List.insertionSort (playLe tsv) items) dateOf).map Prod.fst)
      (List.insertionSort (playLe tsv) items) hnd hcov
    simp only [partitionByDate]
    rw [hmapsnd]
    exact hjoin.trans hperm

/-! ### Properties of the renderer -/

theorem renderRows_ok (ts : List Track) :
    ∀ i : Nat,
    (∀ t ∈ ts, (t.album.images.find? (fun img => img.width == 64)).isSome = true) →
    ∃ rows, renderRows (ts.map some) i = Except.ok rows ∧
      rows.map Prod.snd = ts ∧ rows.length = ts.length := by
  induction ts with
  | nil =>
    intro i _
    exact ⟨[], rfl, rfl, rfl⟩
  | cons t rest ih =>
    intro i h
    have ht := h t (List.mem_cons_self _ _)
    rw [Option.isSome_iff_exists] at ht
    obtain ⟨img, himg⟩ := ht
    obtain ⟨rs, hrs, hsnd, hlen⟩ :=
      ih (i + 1) (fun t' ht' => h t' (List.mem_cons_of_mem _ ht'))
    refine ⟨(rowHtml t img i, t) :: rs, ?_, ?_, ?_⟩
    · simp only [List.map_cons, renderRows, himg, hrs]
    · simp [hsnd]
    · simp [hlen]

theorem lastTen_eq (l : List PlayEvent) :
    (((l.map ArchItem.event).map ArchItem.trackOf).reverse).take 10 =
      ((l.reverse.take 10).map PlayEvent.track).map some := by
  rw [List.map_map]
  have hcomp : (ArchItem.trackOf ∘ ArchItem.event) = fun e => some e.track := rfl
  rw [hcomp, ← List.map_reverse, ← List.map_take, List.map_map]
  rfl

/-- C2 (amended): when each of the `min(10,n)` most recent items carries an
album image of width exactly 64, rendering a date archive of `n` Play Events
succeeds with exactly `min(10,n)` rows, the rows being the most recent
items' tracks in reverse (most-recent-first) archive order, and rewrites the
archive's `items` with exactly those rendered tracks reversed back to
archive (oldest-first) order — as bare tracks, not Play Events. -/
theorem render_caps_and_rewrites (l : List PlayEvent)
    (h : ∀ e ∈ l.reverse.take 10,
      (e.track.album.images.find? (fun img => img.width == 64)).isSome = true) :
    ∃ r, generateRecentlyPlayedHTML (some (freshArchive l)) = Except.ok r ∧
      r.rows.length = min 10 l.length ∧
      r.rows.map Prod.snd = (l.reverse.take 10).map PlayEvent.track ∧
      r.newArchive = { items := some (RawItems.arr
        (((l.reverse.take 10).map PlayEvent.track).reverse.map ArchItem.trackOnly)) } ∧
      r.readme = tableHeader ++ String.join (r.rows.map Prod.fst) ++ "</table>" := by
  have hts : ∀ t ∈ (l.reverse.take 10).map PlayEvent.track,
      (t.album.images.find? (fun img => img.width == 64)).isSome = true := by
    intro t ht
    rw [List.mem_map] at ht
    obtain ⟨e, he, rfl⟩ := ht
    exact h e he
  obtain ⟨rows, hrows, hsnd, hlen⟩ :=
    renderRows_ok ((l.reverse.take 10).map PlayEvent.track) 0 hts
  refine ⟨{ readme := tableHeader ++ String.join (rows.map Prod.fst) ++ "</table>"
            rows := rows
            newArchive := { items := some (RawItems.arr
              (((rows.map Prod.snd).reverse).map ArchItem.trackOnly)) } },
    ?_, ?_, ?_, ?_, rfl⟩
  · simp only [generateRecentlyPlayedHTML, freshArchive]
    rw [lastTen_eq l, hrows]
  · rw [hlen]
    simp
  · exact hsnd
  · rw [hsnd]
  

/-! ### Concrete sample data (used by counterexamples and witnesses) -/

/-- An album image of the width-64 variant the renderer requires. -/
def imgW64 : Image := { url := "https://img.example/64.jpg", width := 64 }

/-- An album whose image list contains the width-64 variant. -/
def albumA : Album :=
  { name := "Album A", images := [imgW64]
    external_urls := { spotify := "https://open.spotify.example/album/a" } }

/-- An album with no width-64 image variant. -/
def albumNoImg : Album :=
  { name := "Album B", images := []
    external_urls := { spotify := "https://open.spotify.example/album/b" } }

/-- A track that renders successfully. -/
def trackA : Track := { name := "Track A", artists := [{ name := "Artist A" }], album := albumA }

/-- A track with no width-64 album image: rendering it throws. -/
def trackB : Track := { name := "Track B", artists := [{ name := "Artist B" }], album := albumNoImg }

/-- A renderable Play Event on 2024-01-01. -/
def ev1 : PlayEvent := { played_at := "2024-01-01T08:00:00.000Z", track := trackA }

/-- A renderable Play Event on 2024-01-02. -/
def ev2 : PlayEvent := { played_at := "2024-01-02T09:00:00.000Z", track := trackA }

/-- A Play Event whose track has no width-64 image. -/
def evNoImg : PlayEvent := { played_at := "2024-01-01T10:00:00.000Z", track := trackB }

/-- C2, counterexample: a date archive whose `items` array holds one Play
Event whose track has no width-64 album image.  The claim promises a
`min(10,1) = 1`-row table and an archive rewrite; the code instead throws
while building the first row (`albumImage.url` on `undefined`), the error is
caught, and neither file is written — no table is produced at all. -/
theorem render_missing_image_counterexample :
    generateRecentlyPlayedHTML (some (freshArchive [evNoImg])) =
      Except.error "TypeError: Cannot read properties of undefined (reading url)" := by
  rfl

/-- C2, witness: the amended theorem applied to the one-event archive
`[ev1]`, whose track does carry a width-64 image. -/
theorem render_caps_and_rewrites_witness :
    (∀ e ∈ ([ev1] : List PlayEvent).reverse.take 10,
      (e.track.album.images.find? (fun img => img.width == 64)).isSome = true) ∧
    (∃ r, generateRecentlyPlayedHTML (some (freshArchive [ev1])) = Except.ok r ∧
      r.rows.length = min 10 ([ev1] : List PlayEvent).length ∧
      r.rows.map Prod.snd = (([ev1] : List PlayEvent).reverse.take 10).map PlayEvent.track ∧
      r.newArchive = { items := some (RawItems.arr
        (((([ev1] : List PlayEvent).reverse.take 10).map PlayEvent.track).reverse.map
          ArchItem.trackOnly)) } ∧
      r.readme = tableHeader ++ String.join (r.rows.map Prod.fst) ++ "</table>") :=
  ⟨by decide, render_caps_and_rewrites [ev1] (by decide)⟩

/-! ### The renderer rewrite stores bare tracks (C3) -/

/-- Everything a successful render writes back into the archive's `items`
is a bare track record, not a Play Event. -/
theorem render_ok_items_trackOnly (a : Option RawArchive) (r : RenderResult)
    (hr : generateRecentlyPlayedHTML a = Except.ok r) :
    ∀ it ∈ r.newArchive.itemsList, it.isEvent = false := by
  match a with
  | none => simp [generateRecentlyPlayedHTML] at hr
  | some d =>
    match hd : d.items with
    | none =>
      simp [generateRecentlyPlayedHTML, hd] at hr
    | some RawItems.nonArray =>
      simp [generateRecentlyPlayedHTML, hd] at hr
    | some (RawItems.arr itemsArr) =>
      simp only [generateRecentlyPlayedHTML, hd] at hr
      cases hrr : renderRows (((itemsArr.map ArchItem.trackOf).reverse).take 10) 0 with
      | error e =>
        rw [hrr] at hr
        cases hr
      | ok rows =>
        rw [hrr] at hr
        cases hr
        intro it hit
        simp only [RawArchive.itemsList, List.mem_map] at hit
        obtain ⟨t, _, rfl⟩ := hit
        rfl

/-- Ascending `played_at` order on archive items, meaningful only between
full Play Event records. -/
def archLe (tsv : String → Int) (i j : ArchItem) : Prop :=
  match i, j with
  | .event a, .event b => tsv a.played_at ≤ tsv b.played_at
  | _, _ => False

/-- C3 (amended): the Per-Date Archiver's write on the per-run (fresh)
archive stores exactly the new Play Events — all records with a `played_at`
and a track, ascending by `played_at` when the group is (which the pipeline
guarantees, the groups being slices of the sorted list).  The Renderer's
rewrite, however, stores bare track records: none of the items it writes
carries a `played_at`. -/
theorem archive_writes_shape (tsv : String → Int) (l : List PlayEvent)
    (hs : List.Sorted (playLe tsv) l) (a : Option RawArchive) (r : RenderResult)
    (hr : generateRecentlyPlayedHTML a = Except.ok r) :
    archiveStep none l = Except.ok (freshArchive l) ∧
    (∀ it ∈ (freshArchive l).itemsList, it.isEvent = true) ∧
    List.Pairwise (archLe tsv) (freshArchive l).itemsList ∧
    (∀ it ∈ r.newArchive.itemsList, it.isEvent = false) := by
  refine ⟨rfl, ?_, ?_, render_ok_items_trackOnly a r hr⟩
  · intro it hit
    simp only [freshArchive, RawArchive.itemsList, List.mem_map] at hit
    obtain ⟨e, _, rfl⟩ := hit
    rfl
  · have : (freshArchive l).itemsList = l.map ArchItem.event := rfl
    rw [this]
    exact hs.map ArchItem.event (fun a b h => h)

/-- C3, counterexample: render the archiver-written archive for `[ev1]`.
The render succeeds and rewrites the archive file, but the single item it
stores has no `played_at` timestamp (it is a bare track), contradicting the
claim that every Date-Archive write leaves `items` a list of Play Events. -/
theorem archive_rewrite_counterexample :
    (generateRecentlyPlayedHTML (some (freshArchive [ev1]))).map
      (fun r => r.newArchive.itemsList.map ArchItem.isEvent) =
      Except.ok [false] := by
  rfl

/-- The result of rendering an empty date archive. -/
def emptyRender : RenderResult :=
  { readme := tableHeader ++ String.join [] ++ "</table>", rows := []
    newArchive := { items := some (RawItems.arr []) } }

/-- C3, witness: the amended theorem at the sorted group `[ev1]` and the
successful render of the empty archive. -/
theorem archive_writes_shape_witness :
    List.Sorted (playLe (fun _ => 0)) [ev1] ∧
    generateRecentlyPlayedHTML (some (freshArchive [])) = Except.ok emptyRender ∧
    (archiveStep none [ev1] = Except.ok (freshArchive [ev1]) ∧
     (∀ it ∈ (freshArchive [ev1]).itemsList, it.isEvent = true) ∧
     List.Pairwise (archLe (fun _ => 0)) (freshArchive [ev1]).itemsList ∧
     (∀ it ∈ emptyRender.newArchive.itemsList, it.isEvent = false)) :=
  ⟨by decide, rfl, archive_writes_shape (fun _ => 0) [ev1] (by decide)
    (some (freshArchive [])) emptyRender rfl⟩

/-! ### Renderer error handling (C5), archiver guard (C10), query building (C6, C9) -/

/-- C5: on a date archive whose parsed content is missing the `items` field
or whose `items` is not an array, the renderer throws the validation error
(caught on line 152, so the run continues with the next date) and the net
effect on `README.md` and on the archive file is the identity: neither file
is written. -/
theorem render_invalid_items (readme0 : Option String) (d : RawArchive)
    (h : d.items = none ∨ d.items = some RawItems.nonArray) :
    generateRecentlyPlayedHTML (some d) =
      Except.error "Invalid data structure in JSON file" ∧
    renderEffects readme0 (some d) = (readme0, some d) := by
  have h1 : generateRecentlyPlayedHTML (some d) =
      Except.error "Invalid data structure in JSON file" := by
    rcases h with h | h <;> simp [generateRecentlyPlayedHTML, h]
  exact ⟨h1, by simp [renderEffects, h1]⟩

/-- C5, witness: the empty object `{}` as archive content, with a previous
`README.md` present. -/
theorem render_invalid_items_witness :
    ((RawArchive.mk none).items = none ∨
      (RawArchive.mk none).items = some RawItems.nonArray) ∧
    (generateRecentlyPlayedHTML (some (RawArchive.mk none)) =
        Except.error "Invalid data structure in JSON file" ∧
      renderEffects (some "previous table") (some (RawArchive.mk none)) =
        (some "previous table", some (RawArchive.mk none))) :=
  ⟨Or.inl rfl, render_invalid_items (some "previous table") (RawArchive.mk none) (Or.inl rfl)⟩

/-- C10: in the per-date archiver, any truthy `db.data` without an `items`
array makes the append branch throw (`db.data.items.push` on a missing or
non-array value); only falsy data takes the create branch, and the append
branch is safe exactly when the existing data carries an `items` array. -/
theorem archiver_append_unguarded (l : List PlayEvent) (prior : List ArchItem)
    (d : RawArchive) (hd : d.items = none ∨ d.items = some RawItems.nonArray) :
    archiveStep (some d) l = Except.error "TypeError: db.data.items is not an array" ∧
    archiveStep none l = Except.ok (freshArchive l) ∧
    archiveStep (some { items := some (RawItems.arr prior) }) l =
      Except.ok { items := some (RawItems.arr (prior ++ l.map ArchItem.event)) } := by
  refine ⟨?_, rfl, rfl⟩
  rcases hd with h | h <;> simp [archiveStep, h]

/-- C10, witness: the empty object `{}` as existing archive data, with one
new event and one prior item. -/
theorem archiver_append_unguarded_witness :
    ((RawArchive.mk none).items = none ∨
      (RawArchive.mk none).items = some RawItems.nonArray) ∧
    (archiveStep (some (RawArchive.mk none)) [ev1] =
        Except.error "TypeError: db.data.items is not an array" ∧
      archiveStep none [ev1] = Except.ok (freshArchive [ev1]) ∧
      archiveStep (some { items := some (RawItems.arr [ArchItem.event ev2]) }) [ev1] =
        Except.ok { items := some (RawItems.arr
          ([ArchItem.event ev2] ++ [ev1].map ArchItem.event)) }) :=
  ⟨Or.inl rfl,
    archiver_append_unguarded [ev1] [ArchItem.event ev2] (RawArchive.mk none) (Or.inl rfl)⟩

/-- C6: with a stored (non-empty) cursor string the request query is
`limit=<n>&after=<cursor>`; with no stored cursor the query is only
`limit=<n>` — the `after` parameter is omitted entirely. -/
theorem fetch_query_after (limit : Nat) (a : String) (ha : a ≠ "") :
    getRecentlyPlayedQuery limit (some a) =
      [("limit", toString limit), ("after", a)] ∧
    getRecentlyPlayedQuery limit none = [("limit", toString limit)] := by
  constructor
  · simp [getRecentlyPlayedQuery, ha]
  · rfl

/-- C6, witness: cursor `"abc123"` and the default limit 50. -/
theorem fetch_query_after_witness :
    ("abc123" : String) ≠ "" ∧
    (getRecentlyPlayedQuery 50 (some "abc123") =
        [("limit", toString 50), ("after", "abc123")] ∧
      getRecentlyPlayedQuery 50 none = [("limit", toString 50)]) :=
  ⟨by decide, fetch_query_after 50 "abc123" (by decide)⟩

/-- C9: a stored cursor whose `after` is the empty string survives the
`?? null` read as `""`, but the `if (after)` truthiness guard then drops it:
the query is identical to the no-cursor query, containing only `limit`. -/
theorem empty_cursor_query (limit : Nat) (c : Cursors) (h : c.after = some "") :
    readCursorAfter (some { cursor := some c }) = some "" ∧
    getRecentlyPlayedQuery limit (readCursorAfter (some { cursor := some c })) =
      getRecentlyPlayedQuery limit none ∧
    getRecentlyPlayedQuery limit none = [("limit", toString limit)] := by
  refine ⟨by simp [readCursorAfter, h], ?_, rfl⟩
  simp [readCursorAfter, h, getRecentlyPlayedQuery]

/-- C9, witness: the empty-string cursor document at limit 50. -/
theorem empty_cursor_query_witness :
    (Cursors.mk (some "")).after = some "" ∧
    (readCursorAfter (some { cursor := some (Cursors.mk (some "")) }) = some "" ∧
      getRecentlyPlayedQuery 50 (readCursorAfter
        (some { cursor := some (Cursors.mk (some "")) })) =
        getRecentlyPlayedQuery 50 none ∧
      getRecentlyPlayedQuery 50 none = [("limit", toString 50)]) :=
  ⟨rfl, empty_cursor_query 50 (Cursors.mk (some "")) rfl⟩

/-! ### Run-level theorems (C4, C7, C8) -/

theorem mainRun_completed (tsv : String → Int) (prev : Option String)
    (resp : FetchResponse) (c : Cursors)
    (hne : resp.items.length ≠ 0) (hc : resp.cursors = some c) :
    mainRun tsv prev resp = RunOutcome.completed
      { readme := ((partitionByDate tsv resp.items).foldl processDate
          { readme := none, archives := [] }).readme
        archives := ((partitionByDate tsv resp.items).foldl processDate
          { readme := none, archives := [] }).archives
        cursorFile := some (match c.after with
          | some a => if a = "" then prev else some a
          | none => prev) } := by
  simp only [mainRun, hc, if_neg hne]

theorem foldl_processDate_readme (gs : List (String × List PlayEvent)) :
    ∀ (st : LoopState) (g : String × List PlayEvent) (r : RenderResult),
    gs.getLast? = some g →
    generateRecentlyPlayedHTML (some (freshArchive g.2)) = Except.ok r →
    (gs.foldl processDate st).readme = some r.readme := by
  induction gs with
  | nil =>
    intro st g r hlast _
    cases hlast
  | cons g0 rest ih =>
    intro st g r hlast hr
    cases rest with
    | nil =>
      have hg : g0 = g := by simpa using hlast
      subst hg
      simp only [List.foldl_cons, List.foldl_nil, processDate]
      rw [hr]
    | cons g1 rest2 =>
      rw [List.getLast?_cons_cons] at hlast
      simp only [List.foldl_cons]
      exact ih (processDate st g0) g r hlast hr

/-- C4: when the fetched items span at least two dates and every per-date
render succeeds, the run completes and the final `README.md` content is
exactly the table rendered for the last date in processing order — each
successful render overwrites the shared file, so no earlier date's table
survives the run. -/
theorem last_date_wins (tsv : String → Int) (prev : Option String)
    (resp : FetchResponse) (c : Cursors)
    (hne : resp.items ≠ [])
    (hc : resp.cursors = some c)
    (hspan : 2 ≤ (partitionByDate tsv resp.items).length)
    (hall : ∀ g ∈ partitionByDate tsv resp.items,
      renderSucceeds (generateRecentlyPlayedHTML (some (freshArchive g.2))) = true) :
    ∃ w g r, mainRun tsv prev resp = RunOutcome.completed w ∧
      (partitionByDate tsv resp.items).getLast? = some g ∧
      generateRecentlyPlayedHTML (some (freshArchive g.2)) = Except.ok r ∧
      w.readme = some r.readme := by
  have hnil : partitionByDate tsv resp.items ≠ [] := by
    intro h
    rw [h] at hspan
    simp at hspan
  obtain ⟨g, hg⟩ : ∃ g, (partitionByDate tsv resp.items).getLast? = some g := by
    cases hlast : (partitionByDate tsv resp.items).getLast? with
    | none => exact absurd (List.getLast?_eq_none_iff.mp hlast) hnil
    | some g => exact ⟨g, rfl⟩
  have hmem : g ∈ partitionByDate tsv resp.items := List.mem_of_getLast?_eq_some hg
  have hok := hall g hmem
  obtain ⟨r, hr⟩ : ∃ r, generateRecentlyPlayedHTML (some (freshArchive g.2)) =
      Except.ok r := by
    cases hrr : generateRecentlyPlayedHTML (some (freshArchive g.2)) with
    | ok r0 => exact ⟨r0, rfl⟩
    | error e =>
      rw [hrr] at hok
      simp [renderSucceeds] at hok
  have hlen : resp.items.length ≠ 0 := by
    simpa [List.length_eq_zero] using hne
  refine ⟨_, g, r, mainRun_completed tsv prev resp c hlen hc, hg, hr, ?_⟩
  exact foldl_processDate_readme (partitionByDate tsv resp.items)
    { readme := none, archives := [] } g r hg hr

/-- C7: a run with non-empty items that reaches the cursor write leaves the
stored cursor value unchanged whenever the fetched `cursors.after` is falsy
(absent or the empty string): the cursor document still holds the
previously persisted value. -/
theorem cursor_unchanged_when_falsy (tsv : String → Int) (prev : Option String)
    (resp : FetchResponse) (c : Cursors)
    (hne : resp.items ≠ [])
    (hc : resp.cursors = some c)
    (hfalsy : c.after = none ∨ c.after = some "") :
    ∃ w, mainRun tsv prev resp = RunOutcome.completed w ∧ w.cursorFile = some prev := by
  have hlen : resp.items.length ≠ 0 := by
    simpa [List.length_eq_zero] using hne
  rw [mainRun_completed tsv prev resp c hlen hc]
  refine ⟨_, rfl, ?_⟩
  rcases hfalsy with h | h <;> simp [h]

/-- C8: a run whose fetch returns zero items exits with code 0 having
written nothing: no `README.md` write, no date-archive write, and no cursor
document write. -/
theorem no_items_no_writes (tsv : String → Int) (prev : Option String)
    (resp : FetchResponse) (h : resp.items = []) :
    mainRun tsv prev resp =
      RunOutcome.earlyExit 0 { readme := none, archives := [], cursorFile := none } := by
  simp [mainRun, h]

/-- A third renderable event on 2024-01-01, used by the C4 witness. -/
def ev3 : PlayEvent := { played_at := "2024-01-01T09:00:00.000Z", track := trackA }

/-- The timestamp valuation used by concrete witnesses. -/
def tsvLen : String → Int := fun s => (s.length : Int)

/-- The fetch response used by the C4 witness: three events over two dates. -/
def respW : FetchResponse := { items := [ev1, ev3, ev2], cursors := some { after := some "newTok" } }

/-- C4, witness: the theorem applied to a run of three events spanning
2024-01-01 and 2024-01-02, all renderable. -/
theorem last_date_wins_witness :
    respW.items ≠ [] ∧ respW.cursors = some { after := some "newTok" } ∧
    2 ≤ (partitionByDate tsvLen respW.items).length ∧
    (∀ g ∈ partitionByDate tsvLen respW.items,
      renderSucceeds (generateRecentlyPlayedHTML (some (freshArchive g.2))) = true) ∧
    (∃ w g r, mainRun tsvLen (some "prevTok") respW = RunOutcome.completed w ∧
      (partitionByDate tsvLen respW.items).getLast? = some g ∧
      generateRecentlyPlayedHTML (some (freshArchive g.2)) = Except.ok r ∧
      w.readme = some r.readme) :=
  ⟨by decide, rfl, by decide, by decide,
    last_date_wins tsvLen (some "prevTok") respW { after := some "newTok" }
      (by decide) rfl (by decide) (by decide)⟩

/-- C7, witness: one fetched item, response `cursors.after` absent, previous
cursor `"prevTok"`. -/
theorem cursor_unchanged_when_falsy_witness :
    (FetchResponse.mk [ev1] (some { after := none })).items ≠ [] ∧
    (FetchResponse.mk [ev1] (some { after := none })).cursors = some { after := none } ∧
    ((Cursors.mk none).after = none ∨ (Cursors.mk none).after = some "") ∧
    (∃ w, mainRun tsvLen (some "prevTok") (FetchResponse.mk [ev1] (some { after := none })) =
        RunOutcome.completed w ∧ w.cursorFile = some (some "prevTok")) :=
  ⟨by decide, rfl, Or.inl rfl,
    cursor_unchanged_when_falsy tsvLen (some "prevTok")
      (FetchResponse.mk [ev1] (some { after := none })) (Cursors.mk none)
      (by decide) rfl (Or.inl rfl)⟩

/-- C8, witness: an empty fetch result. -/
theorem no_items_no_writes_witness :
    (FetchResponse.mk [] (some { after := some "tok" })).items = [] ∧
    mainRun tsvLen (some "prevTok") (FetchResponse.mk [] (some { after := some "tok" })) =
      RunOutcome.earlyExit 0 { readme := none, archives := [], cursorFile := none } :=
  ⟨rfl, no_items_no_writes tsvLen (some "prevTok")
    (FetchResponse.mk [] (some { after := some "tok" })) rfl⟩
